import Mathlib

/-!
Shallow embedding of the capacity accounting and admission-control engine of
the vettedpulse repository: `CapacityMonitor` (capacity snapshots, status
classification, pause decision, recommended tier, warning deduplication,
fetch failure handling) and `TierManager` (admission decisions, upgrade
eligibility, signup tier scan, TTL cache).

JS numbers are modelled as exact rationals (`ℚ`); JS objects whose key order
matters (the `tiers` map iterated with `Object.entries`) are modelled as
association lists preserving insertion order; fallible backend calls are
modelled by passing the response as an `Option` value.
-/

namespace VettedPulse

/-- One tier's entry in a capacity snapshot:
`{used, limit, available, percentFull}` as delivered by the backend. -/
structure TierCapacity where
  used : ℚ
  limit : ℚ
  available : ℚ
  percentFull : ℚ
  deriving Repr, DecidableEq

/-- A global counter `{used, limit, remaining}` (clicks or sales). -/
structure ResourceCounter where
  used : ℚ
  limit : ℚ
  remaining : ℚ
  deriving Repr, DecidableEq

/-- `data.capacity`: the snapshot held in `this.currentCapacity`.
The `tiers` object is kept as an association list in the object's
insertion order, which is the order `Object.entries` iterates in JS. -/
structure CapacitySnapshot where
  clicks : ResourceCounter
  sales : ResourceCounter
  tiers : List (String × TierCapacity)
  deriving Repr, DecidableEq

/-- `(this.currentCapacity.clicks.used / this.currentCapacity.clicks.limit) * 100`,
the global click utilization percentage computed throughout part_000. -/
def clickPercent (c : CapacitySnapshot) : ℚ :=
  c.clicks.used / c.clicks.limit * 100

/-- The object returned by `CapacityMonitor.getSystemStatus`. -/
structure SystemStatus where
  status : String
  color : String
  message : String
  percentage : Option ℚ
  deriving Repr, DecidableEq

/-- `CapacityMonitor.getSystemStatus` (part_000 lines 77-110): classify by
global click percentage, or `unknown` when no snapshot is held. -/
def getSystemStatus (cur : Option CapacitySnapshot) : SystemStatus :=
  match cur with
  | none => ⟨"unknown", "gray", "Loading system status...", none⟩
  | some c =>
    let p := clickPercent c
    if p > 95 then
      ⟨"critical", "red", "⚠️ System near capacity - New signups paused", some p⟩
    else if p > 80 then
      ⟨"warning", "yellow", "⚡ High traffic - Performance may vary", some p⟩
    else
      ⟨"healthy", "green", "✅ System operating normally", some p⟩

/-- `CapacityMonitor.shouldPauseSignups` (part_000 lines 147-158): `false`
with no snapshot; otherwise true when any tier has `percentFull > 95`, or
when the global click percentage exceeds 90. -/
def shouldPauseSignups (cur : Option CapacitySnapshot) : Bool :=
  match cur with
  | none => false
  | some c =>
    if c.tiers.any (fun t => t.2.percentFull > 95) then true
    else decide (clickPercent c > 90)

/-- Loop body of `CapacityMonitor.getRecommendedTier`: keep `(bestTier,
mostSpace)` unless this tier's `available` strictly exceeds `mostSpace`. -/
def recommendStep (acc : String × ℚ) (t : String × TierCapacity) :
    String × ℚ :=
  if t.2.available > acc.2 then (t.1, t.2.available) else acc

/-- `CapacityMonitor.getRecommendedTier` (part_000 lines 164-179):
starting from `bestTier = 'NEWBIE'`, `mostSpace = 0`, take each tier whose
`available` strictly exceeds the best seen so far. -/
def getRecommendedTier (cur : Option CapacitySnapshot) : String :=
  match cur with
  | none => "NEWBIE"
  | some c => (c.tiers.foldl recommendStep ("NEWBIE", 0)).1

/-- The warning rules of `CapacityMonitor.checkWarnings` (part_000 lines
188-244) as an ordered list of `(condition holds, dedup key)` pairs, in the
code's evaluation order: `clicks_80`, `clicks_95`, then per tier (iterated
in snapshot order) `tier_..._90` followed by `tier_..._98`. -/
def candidateWarnings (c : CapacitySnapshot) : List (Bool × String) :=
  (decide (clickPercent c > 80), "clicks_80") ::
  (decide (clickPercent c > 95), "clicks_95") ::
  c.tiers.flatMap (fun t =>
    [(decide (t.2.percentFull > 90), "tier_" ++ t.1 ++ "_90"),
     (decide (t.2.percentFull > 98), "tier_" ++ t.1 ++ "_98")])

/-- One rule of `checkWarnings`: when the condition holds and the key is not
in `warningsShown`, push the warning and record the key; otherwise skip. The
accumulator is `(warnings pushed so far, warningsShown)`. -/
def fireStep (acc : List String × List String) (cand : Bool × String) :
    List String × List String :=
  if cand.1 = true ∧ cand.2 ∉ acc.2 then
    (acc.1 ++ [cand.2], acc.2 ++ [cand.2])
  else acc

/-- `CapacityMonitor.checkWarnings`: with no snapshot it returns at once;
otherwise it evaluates every rule in order against the fired-key set,
returning the keys of the warnings pushed and the updated set. -/
def checkWarnings (fired : List String) (cur : Option CapacitySnapshot) :
    List String × List String :=
  match cur with
  | none => ([], fired)
  | some c => (candidateWarnings c).foldl fireStep ([], fired)

/-- `CapacityMonitor.resetWarnings` (part_000 lines 283-285):
`this.warningsShown.clear()`. -/
def resetWarnings (_fired : List String) : List String := []

/-- Repeated `checkWarnings` evaluations over a sequence of arriving
snapshots, threading the fired-key set and concatenating everything
emitted. -/
def runEngine (fired : List String) (snaps : List CapacitySnapshot) :
    List String × List String :=
  snaps.foldl
    (fun acc snap =>
      let r := checkWarnings acc.2 (some snap)
      (acc.1 ++ r.1, r.2))
    ([], fired)

/-- The mutable state of a `CapacityMonitor` relevant to the claims:
`this.currentCapacity` and `this.warningsShown`. -/
structure MonitorState where
  currentCapacity : Option CapacitySnapshot
  warningsShown : List String
  deriving Repr, DecidableEq

/-- A backend reply `{success, capacity}`; a transport error or JSON parse
failure (the `catch` path) is modelled as the response being `none`. -/
structure FetchResponse where
  success : Bool
  capacity : CapacitySnapshot
  deriving Repr, DecidableEq

/-- `CapacityMonitor.fetchCapacity` (part_000 lines 40-63): on
`data.success` store the snapshot, run `checkWarnings`, and return the
snapshot; on `success:false` or a thrown error return `null` leaving the
state untouched. -/
def fetchCapacity (s : MonitorState) (response : Option FetchResponse) :
    Option CapacitySnapshot × MonitorState :=
  match response with
  | none => (none, s)
  | some r =>
    if r.success = true then
      let fired := (checkWarnings s.warningsShown (some r.capacity)).2
      (some r.capacity, ⟨some r.capacity, fired⟩)
    else (none, s)

/-- The fields of the tier-status object built by
`TierManager.getCurrentTier` that the admission claims use. -/
structure TierStatus where
  tier : String
  salesRequiredForUpgrade : ℚ
  totalSales : ℚ
  nextTier : Option String
  clicksToday : ℚ
  clicksLimit : ℚ
  clicksRemaining : ℚ
  deriving Repr, DecidableEq

/-- The permission object returned by `TierManager.isActionAllowed`;
fields absent from a given return site are `none`. -/
structure ActionDecision where
  allowed : Bool
  reason : Option String
  current : Option ℚ
  limit : Option ℚ
  remaining : Option ℚ
  deriving Repr, DecidableEq

/-- `TierManager.isActionAllowed` (tierManager.js lines 88-118). The
`tier` argument is the result of `getCurrentTier`, `none` when that fetch
failed. `switch(action)` falls through to a fail-open `default`. -/
def isActionAllowed (action : String) (tier : Option TierStatus) :
    ActionDecision :=
  match tier with
  | none => ⟨false, some "Unable to verify tier", none, none, none⟩
  | some t =>
    if action = "click" then
      if t.clicksRemaining ≤ 0 then
        ⟨false, some "Daily click limit reached",
          some t.clicksToday, some t.clicksLimit, some 0⟩
      else
        ⟨true, none, some t.clicksToday, some t.clicksLimit,
          some t.clicksRemaining⟩
    else if action = "sale" then ⟨true, none, none, none, none⟩
    else ⟨true, none, none, none, none⟩

/-- The reason strings of `TierManager.canUpgrade`, kept as a sum so the
three deny sites stay distinguishable: `maxTier` renders as
"Already at max tier", `tierFull nt` as the interpolation of `nt` into
"... tier is currently full", and `salesShortfall r` as the interpolation
of `r` into "Need ... more sales". -/
inductive UpgradeReason where
  | maxTier : UpgradeReason
  | tierFull : String → UpgradeReason
  | salesShortfall : ℚ → UpgradeReason
  deriving Repr, DecidableEq

/-- The eligibility object returned by `TierManager.canUpgrade`:
`{canUpgrade, reason?, waitlist?}`. -/
structure UpgradeDecision where
  canUpgrade : Bool
  reason : Option UpgradeReason
  waitlist : Bool
  deriving Repr, DecidableEq

/-- `TierManager.canUpgrade` (tierManager.js lines 135-171). `tier` is the
`getCurrentTier` result; `nextCap` is what `checkTierCapacity(tier.nextTier)`
returns in the sales-satisfied branch. -/
def canUpgrade (tier : Option TierStatus) (nextCap : TierCapacity) :
    UpgradeDecision :=
  match tier with
  | none => ⟨false, some .maxTier, false⟩
  | some t =>
    match t.nextTier with
    | none => ⟨false, some .maxTier, false⟩
    | some nt =>
      let required := t.salesRequiredForUpgrade
      if t.totalSales ≥ required then
        if nextCap.available > 0 then
          ⟨true, none, false⟩
        else
          ⟨false, some (.tierFull nt), true⟩
      else
        ⟨false, some (.salesShortfall (required - t.totalSales)), false⟩

/-- `TierManager.getAvailableTier` (tierManager.js lines 273-287): iterate
`Object.entries` of the capacities returned by `getAllTierCapacities` and
return the first tier with `available > 0`, else `null`. -/
def getAvailableTier (capacities : List (String × TierCapacity)) :
    Option (String × TierCapacity) :=
  match capacities with
  | [] => none
  | entry :: rest =>
    if entry.2.available > 0 then some entry else getAvailableTier rest

/-- `TierManager.checkTierCapacity` (tierManager.js lines 215-239), cache
aside: on a failed fetch, `success:false`, or a tier absent from the
response, return the zero default `{used: 0, limit: 0, available: 0}`. -/
def checkTierCapacity (response : Option FetchResponse) (tierName : String) :
    TierCapacity :=
  match response with
  | none => ⟨0, 0, 0, 0⟩
  | some r =>
    if r.success = true then
      match r.capacity.tiers.lookup tierName with
      | some cap => cap
      | none => ⟨0, 0, 0, 0⟩
    else ⟨0, 0, 0, 0⟩

/-- `TierManager.getAllTierCapacities` (tierManager.js lines 251-267): the
response's `tiers` object, or the empty object `{}` on failure. -/
def getAllTierCapacities (response : Option FetchResponse) :
    List (String × TierCapacity) :=
  match response with
  | none => []
  | some r => if r.success = true then r.capacity.tiers else []

/-- A cache slot `{value, expiry}` as stored by `TierManager.setCached`. -/
structure CacheEntry (V : Type) where
  value : V
  expiry : ℕ
  deriving Repr, DecidableEq

/-- The `Map` held in `this.cache`, as an association list. -/
def Cache (V : Type) : Type := List (String × CacheEntry V)

/-- `Map.get`/`Map.has`: the entry stored under `key`, if any. -/
def cacheFind {V : Type} (key : String) : Cache V → Option (CacheEntry V)
  | [] => none
  | (k, e) :: rest => if k = key then some e else cacheFind key rest

/-- `Map.delete key`. -/
def cacheDelete {V : Type} (key : String) : Cache V → Cache V
  | [] => []
  | (k, e) :: rest =>
    if k = key then cacheDelete key rest else (k, e) :: cacheDelete key rest

/-- `Map.set key e`: overwrite in place, or append when absent. -/
def cacheSet {V : Type} (key : String) (e : CacheEntry V) : Cache V → Cache V
  | [] => [(key, e)]
  | (k, e0) :: rest =>
    if k = key then (k, e) :: rest else (k, e0) :: cacheSet key e rest

/-- `TierManager.cacheTTL = 300000` (5 minutes), the default TTL. -/
def cacheTTL : ℕ := 300000

/-- `TierManager.getCached` (tierManager.js lines 356-366): return the
stored value when `Date.now() < expiry`, otherwise delete the entry and
return `null`. Returns the possibly-evicted cache alongside the value. -/
def getCached {V : Type} (now : ℕ) (cache : Cache V) (key : String) :
    Option V × Cache V :=
  match cacheFind key cache with
  | some e => if now < e.expiry then (some e.value, cache)
              else (none, cacheDelete key cache)
  | none => (none, cache)

/-- `TierManager.setCached` (tierManager.js lines 368-378): store `value`
under `key` with `expiry = Date.now() + ttl`; the `ttl` parameter defaults
to `this.cacheTTL`, modelled by an `Option` argument. -/
def setCached {V : Type} (now : ℕ) (cache : Cache V) (key : String)
    (value : V) (ttl : Option ℕ) : Cache V :=
  cacheSet key ⟨value, now + ttl.getD cacheTTL⟩ cache

/-- `TierManager.clearCache` (tierManager.js lines 383-385):
`this.cache.clear()`. -/
def clearCache {V : Type} (_cache : Cache V) : Cache V := []

/-! ### Helper lemmas for the warning engine -/

/-- Warnings already pushed are kept by every later rule. -/
lemma foldl_fireStep_emitted_mono (cs : List (Bool × String))
    (acc : List String × List String) :
    acc.1 ⊆ (cs.foldl fireStep acc).1 := by
  induction cs generalizing acc with
  | nil => exact fun _ h => h
  | cons cand rest ih =>
    intro k hk
    apply ih (fireStep acc cand)
    unfold fireStep
    split
    · exact List.mem_append_left _ hk
    · exact hk

/-- Keys already in the fired-set stay in it. -/
lemma foldl_fireStep_fired_mono (cs : List (Bool × String))
    (acc : List String × List String) :
    acc.2 ⊆ (cs.foldl fireStep acc).2 := by
  induction cs generalizing acc with
  | nil => exact fun _ h => h
  | cons cand rest ih =>
    intro k hk
    apply ih (fireStep acc cand)
    unfold fireStep
    split
    · exact List.mem_append_left _ hk
    · exact hk

/-- Potential of a key in an accumulator: occurrences already emitted plus
one when the key is still unfired.  Every rule evaluation is non-increasing
on it, which is exactly the fire-once discipline. -/
def keyPotential (key : String) (acc : List String × List String) : ℕ :=
  acc.1.count key + (if key ∈ acc.2 then 0 else 1)

lemma fireStep_potential (key : String) (acc : List String × List String)
    (cand : Bool × String) :
    keyPotential key (fireStep acc cand) ≤ keyPotential key acc := by
  unfold fireStep keyPotential
  split
  · rename_i h
    by_cases hk : key = cand.2
    · subst hk
      simp [List.count_append, h.2]
    · simp [List.count_append, List.mem_append, hk]
  · exact le_refl _

lemma foldl_fireStep_potential (cs : List (Bool × String))
    (acc : List String × List String) (key : String) :
    keyPotential key (cs.foldl fireStep acc) ≤ keyPotential key acc := by
  induction cs generalizing acc with
  | nil => exact le_refl _
  | cons cand rest ih =>
    exact le_trans (ih (fireStep acc cand)) (fireStep_potential key acc cand)

/-- A rule whose condition holds and whose key is still unfired does emit
its key. -/
lemma foldl_fireStep_fires (cs : List (Bool × String)) (key : String) :
    ∀ (acc : List String × List String), (true, key) ∈ cs → key ∉ acc.2 →
    key ∈ (cs.foldl fireStep acc).1 := by
  induction cs with
  | nil => intro acc h _; cases h
  | cons cand rest ih =>
    intro acc hmem hf
    rcases List.mem_cons.mp hmem with hhead | htail
    · have hfire : fireStep acc cand = (acc.1 ++ [key], acc.2 ++ [key]) := by
        rw [← hhead]
        unfold fireStep
        rw [if_pos ⟨rfl, hf⟩]
      rw [List.foldl_cons, hfire]
      exact foldl_fireStep_emitted_mono rest _ (by simp)
    · by_cases hk : cand.2 = key
      · by_cases hb : cand.1 = true
        · have hfire : fireStep acc cand = (acc.1 ++ [key], acc.2 ++ [key]) := by
            unfold fireStep
            rw [if_pos ⟨hb, by rw [hk]; exact hf⟩, hk]
          rw [List.foldl_cons, hfire]
          exact foldl_fireStep_emitted_mono rest _ (by simp)
        · have hskip : fireStep acc cand = acc := by
            unfold fireStep
            rw [if_neg (fun hc => hb hc.1)]
          rw [List.foldl_cons, hskip]
          exact ih acc htail hf
      · rw [List.foldl_cons]
        apply ih (fireStep acc cand) htail
        unfold fireStep
        split
        · simp [hk, hf]
          exact fun h => (hk h.symm).elim
        · exact hf

/-- Everything in the emitted list was already emitted or is now in the
fired-set. -/
lemma foldl_fireStep_emitted_fired (cs : List (Bool × String)) (key : String) :
    ∀ (acc : List String × List String), key ∈ (cs.foldl fireStep acc).1 →
    key ∈ acc.1 ∨ key ∈ (cs.foldl fireStep acc).2 := by
  induction cs with
  | nil => intro acc h; exact Or.inl h
  | cons cand rest ih =>
    intro acc h
    rw [List.foldl_cons] at h ⊢
    rcases ih (fireStep acc cand) h with hin | hin
    · unfold fireStep at hin
      by_cases hc : cand.1 = true ∧ cand.2 ∉ acc.2
      · rw [if_pos hc] at hin
        rcases List.mem_append.mp hin with h1 | h1
        · exact Or.inl h1
        · right
          apply foldl_fireStep_fired_mono rest (fireStep acc cand)
          unfold fireStep
          rw [if_pos hc]
          exact List.mem_append_right _ h1
      · rw [if_neg hc] at hin
        exact Or.inl hin
    · exact Or.inr hin

/-- One evaluation never raises a key's potential above the potential of an
empty emission list over the incoming fired-set. -/
lemma checkWarnings_potential (f : List String) (c : CapacitySnapshot)
    (key : String) :
    keyPotential key (checkWarnings f (some c)) ≤ if key ∈ f then 0 else 1 := by
  have h := foldl_fireStep_potential (candidateWarnings c) ([], f) key
  unfold checkWarnings
  unfold keyPotential at h
  simpa using h

/-- The whole run of the engine never raises a key's potential. -/
lemma runEngine_potential (snaps : List CapacitySnapshot) (key : String) :
    ∀ (acc : List String × List String),
    keyPotential key (snaps.foldl
      (fun acc snap =>
        let r := checkWarnings acc.2 (some snap)
        (acc.1 ++ r.1, r.2)) acc) ≤ keyPotential key acc := by
  induction snaps with
  | nil => intro acc; exact le_refl _
  | cons snap rest ih =>
    intro acc
    rw [List.foldl_cons]
    refine le_trans (ih _) ?_
    have h := checkWarnings_potential acc.2 snap key
    unfold keyPotential at h ⊢
    rw [List.count_append]
    by_cases hm : key ∈ acc.2 <;>
      by_cases hf2 : key ∈ (checkWarnings acc.2 (some snap)).2 <;>
      simp [hm, hf2] at h ⊢ <;> omega

/-- Emitted occurrences are bounded by the potential. -/
lemma count_le_keyPotential (key : String) (acc : List String × List String) :
    acc.1.count key ≤ keyPotential key acc :=
  Nat.le_add_right _ _

/-! ### Claim theorems -/

/-- C2: over any sequence of warning evaluations, each distinct threshold
key is emitted at most once since the last reset: never again once in the
fired-set (in particular dropping below a threshold and crossing back up
cannot re-fire it), zero times if it was already fired, emitted only if
absent and then recorded, and after `resetWarnings` a crossing whose
condition holds fires again. -/
theorem warningEngine_fires_at_most_once (fired0 : List String)
    (snaps : List CapacitySnapshot) (key : String) :
    (runEngine fired0 snaps).1.count key ≤ 1
    ∧ (key ∈ fired0 → (runEngine fired0 snaps).1.count key = 0)
    ∧ (∀ (f : List String) (c : CapacitySnapshot), key ∈ f →
        key ∉ (checkWarnings f (some c)).1)
    ∧ (∀ (f : List String) (c : CapacitySnapshot),
        key ∈ (checkWarnings f (some c)).1 →
        key ∉ f ∧ key ∈ (checkWarnings f (some c)).2)
    ∧ (∀ (f : List String) (c : CapacitySnapshot),
        (true, key) ∈ candidateWarnings c →
        key ∈ (checkWarnings (resetWarnings f) (some c)).1) := by
  have hnotmem : ∀ (f : List String) (c : CapacitySnapshot), key ∈ f →
      key ∉ (checkWarnings f (some c)).1 := by
    intro f c hf
    have hpot := checkWarnings_potential f c key
    rw [if_pos hf] at hpot
    have hcount := le_trans (count_le_keyPotential key _) hpot
    exact List.count_eq_zero.mp (Nat.le_zero.mp hcount)
  refine ⟨?_, ?_, hnotmem, ?_, ?_⟩
  · have hpot := runEngine_potential snaps key ([], fired0)
    have hcount := le_trans (count_le_keyPotential key _) hpot
    unfold runEngine
    refine le_trans hcount ?_
    unfold keyPotential
    simp only [List.count_nil, Nat.zero_add]
    split <;> omega
  · intro hf
    have hpot := runEngine_potential snaps key ([], fired0)
    have hcount := le_trans (count_le_keyPotential key _) hpot
    unfold runEngine
    unfold keyPotential at hcount
    rw [List.count_nil, if_pos hf] at hcount
    omega
  · intro f c hmem
    refine ⟨fun hf => hnotmem f c hf hmem, ?_⟩
    have h := foldl_fireStep_emitted_fired (candidateWarnings c) key ([], f)
    unfold checkWarnings at hmem ⊢
    rcases h hmem with h0 | h0
    · cases h0
    · exact h0
  · intro f c hcand
    unfold checkWarnings resetWarnings
    exact foldl_fireStep_fires (candidateWarnings c) key ([], []) hcand
      (by simp)

/-- Witness for C2 at a concrete input: with `clicks_80` already fired, a
snapshot at 82% global clicks emits nothing for that key. -/
theorem warningEngine_fires_at_most_once_witness :
    (runEngine ["clicks_80"]
      [⟨⟨82, 100, 18⟩, ⟨0, 0, 0⟩, []⟩]).1.count "clicks_80" = 0 :=
  (warningEngine_fires_at_most_once ["clicks_80"]
    [⟨⟨82, 100, 18⟩, ⟨0, 0, 0⟩, []⟩] "clicks_80").2.1 (by simp)

/-- C1: `systemStatus()` classifies by the global click utilization
percentage with exact cut points: no snapshot yields UNKNOWN, `p > 95`
yields CRITICAL, `80 < p ≤ 95` yields WARNING and `p ≤ 80` yields HEALTHY,
each time with the matching message string and color tag. -/
theorem systemStatus_classification (cur : Option CapacitySnapshot) :
    (cur = none →
      getSystemStatus cur = ⟨"unknown", "gray", "Loading system status...", none⟩)
    ∧ (∀ c, cur = some c →
        (clickPercent c > 95 →
          getSystemStatus cur =
            ⟨"critical", "red", "⚠️ System near capacity - New signups paused",
              some (clickPercent c)⟩)
        ∧ (80 < clickPercent c ∧ clickPercent c ≤ 95 →
          getSystemStatus cur =
            ⟨"warning", "yellow", "⚡ High traffic - Performance may vary",
              some (clickPercent c)⟩)
        ∧ (clickPercent c ≤ 80 →
          getSystemStatus cur =
            ⟨"healthy", "green", "✅ System operating normally",
              some (clickPercent c)⟩)) := by
  constructor
  · rintro rfl; rfl
  · rintro c rfl
    refine ⟨fun hp => ?_, fun hp => ?_, fun hp => ?_⟩
    · simp only [getSystemStatus]
      rw [if_pos hp]
    · simp only [getSystemStatus]
      rw [if_neg (not_lt.mpr hp.2), if_pos hp.1]
    · simp only [getSystemStatus]
      rw [if_neg (not_lt.mpr (le_trans hp (by norm_num))), if_neg (not_lt.mpr hp)]

/-- Witness for C1 at a concrete input: a snapshot at 82% global click
utilization classifies as WARNING with the matching message and color. -/
theorem systemStatus_classification_witness :
    getSystemStatus (some ⟨⟨82, 100, 18⟩, ⟨0, 0, 0⟩, []⟩) =
      ⟨"warning", "yellow", "⚡ High traffic - Performance may vary",
        some (clickPercent ⟨⟨82, 100, 18⟩, ⟨0, 0, 0⟩, []⟩)⟩ :=
  ((systemStatus_classification
      (some ⟨⟨82, 100, 18⟩, ⟨0, 0, 0⟩, []⟩)).2 _ rfl).2.1
    ⟨by norm_num [clickPercent], by norm_num [clickPercent]⟩

/-- C4: with a snapshot held, `shouldPauseSignups()` is true exactly when
some tier's `percentFull` exceeds 95 or the global click percentage
exceeds 90; either disjunct alone suffices. -/
theorem shouldPauseSignups_iff (c : CapacitySnapshot) :
    shouldPauseSignups (some c) = true ↔
      (∃ t ∈ c.tiers, t.2.percentFull > 95) ∨ clickPercent c > 90 := by
  simp only [shouldPauseSignups]
  by_cases h : c.tiers.any (fun t => decide (t.2.percentFull > 95)) = true
  · rw [if_pos h]
    simp only [true_iff]
    left
    simpa [List.any_eq_true] using h
  · rw [if_neg h]
    rw [decide_eq_true_iff]
    constructor
    · exact Or.inr
    · rintro (he | hg)
      · exact absurd (List.any_eq_true.mpr (by simpa [List.any_eq_true] using he)) h
      · exact hg

/-- C10: before the first successful snapshot fetch, `shouldPauseSignups()`
returns false — signups are never paused on missing data. -/
theorem shouldPauseSignups_no_snapshot : shouldPauseSignups none = false := rfl

/-- Unfolding of `recommendStep` on literal pairs. -/
lemma recommendStep_eq (name : String) (q : ℚ) (tn : String) (t : TierCapacity) :
    recommendStep (name, q) (tn, t) =
      if t.available > q then (tn, t.available) else (name, q) := rfl

/-- C3: over the tiers in configuration (priority) order — NEWBIE, ACTIVE,
PRO, ELITE — `getAvailableTier` returns the first tier with `available > 0`,
filling lower tiers before higher ones, and `none` when every tier has
`available = 0` (for any tier list at all). -/
theorem availableTier_spec (a b c d : TierCapacity) :
    (a.available > 0 →
      getAvailableTier [("NEWBIE", a), ("ACTIVE", b), ("PRO", c), ("ELITE", d)]
        = some ("NEWBIE", a))
    ∧ (a.available ≤ 0 → b.available > 0 →
      getAvailableTier [("NEWBIE", a), ("ACTIVE", b), ("PRO", c), ("ELITE", d)]
        = some ("ACTIVE", b))
    ∧ (a.available ≤ 0 → b.available ≤ 0 → c.available > 0 →
      getAvailableTier [("NEWBIE", a), ("ACTIVE", b), ("PRO", c), ("ELITE", d)]
        = some ("PRO", c))
    ∧ (a.available ≤ 0 → b.available ≤ 0 → c.available ≤ 0 → d.available > 0 →
      getAvailableTier [("NEWBIE", a), ("ACTIVE", b), ("PRO", c), ("ELITE", d)]
        = some ("ELITE", d))
    ∧ (∀ caps : List (String × TierCapacity),
        (∀ e ∈ caps, e.2.available = 0) → getAvailableTier caps = none) := by
  refine ⟨fun h1 => ?_, fun h1 h2 => ?_, fun h1 h2 h3 => ?_,
    fun h1 h2 h3 h4 => ?_, ?_⟩
  · simp [getAvailableTier, h1]
  · simp [getAvailableTier, not_lt.mpr h1, h2]
  · simp [getAvailableTier, not_lt.mpr h1, not_lt.mpr h2, h3]
  · simp [getAvailableTier, not_lt.mpr h1, not_lt.mpr h2, not_lt.mpr h3, h4]
  · intro caps hall
    induction caps with
    | nil => rfl
    | cons e rest ih =>
      simp only [getAvailableTier]
      rw [if_neg (by rw [hall e (List.mem_cons_self e rest)]; exact lt_irrefl 0)]
      exact ih (fun x hx => hall x (List.mem_cons_of_mem e hx))

/-- Witness for C3 at a concrete input: NEWBIE full, ACTIVE open — the
scan skips NEWBIE and lands on ACTIVE. -/
theorem availableTier_spec_witness :
    getAvailableTier
      [("NEWBIE", ⟨2000, 2000, 0, 100⟩), ("ACTIVE", ⟨280, 400, 120, 70⟩),
       ("PRO", ⟨0, 90, 90, 0⟩), ("ELITE", ⟨0, 10, 10, 0⟩)]
      = some ("ACTIVE", ⟨280, 400, 120, 70⟩) :=
  (availableTier_spec ⟨2000, 2000, 0, 100⟩ ⟨280, 400, 120, 70⟩
    ⟨0, 90, 90, 0⟩ ⟨0, 10, 10, 0⟩).2.1 (by norm_num) (by norm_num)

/-- C5: with the configured tiers in configuration order,
`getRecommendedTier` returns the tier with the strictly largest `available`
count; ties resolve to the earliest-declared tier; with no snapshot it
returns NEWBIE. -/
theorem recommendedTier_spec (cl sl : ResourceCounter) (a b c d : TierCapacity)
    (ha : 0 ≤ a.available) :
    getRecommendedTier none = "NEWBIE"
    ∧ getRecommendedTier (some ⟨cl, sl,
        [("NEWBIE", a), ("ACTIVE", b), ("PRO", c), ("ELITE", d)]⟩) =
      (if b.available ≤ a.available ∧ c.available ≤ a.available ∧
          d.available ≤ a.available then "NEWBIE"
       else if c.available ≤ b.available ∧ d.available ≤ b.available then "ACTIVE"
       else if d.available ≤ c.available then "PRO"
       else "ELITE") := by
  refine ⟨rfl, ?_⟩
  simp only [getRecommendedTier, List.foldl_cons, List.foldl_nil]
  have hs1 : recommendStep ("NEWBIE", 0) ("NEWBIE", a) = ("NEWBIE", a.available) := by
    rw [recommendStep_eq]
    rcases eq_or_lt_of_le ha with h0 | h0
    · rw [if_neg (not_lt.mpr (le_of_eq h0.symm)), h0]
    · rw [if_pos h0]
  rw [hs1]
  by_cases hb1 : b.available > a.available
  · rw [recommendStep_eq "NEWBIE" a.available "ACTIVE" b, if_pos hb1]
    by_cases hc1 : c.available > b.available
    · rw [recommendStep_eq "ACTIVE" b.available "PRO" c, if_pos hc1]
      by_cases hd1 : d.available > c.available
      · rw [recommendStep_eq "PRO" c.available "ELITE" d, if_pos hd1,
          if_neg (fun h => absurd h.1 (not_le.mpr hb1)),
          if_neg (fun h => absurd h.1 (not_le.mpr hc1)),
          if_neg (not_le.mpr hd1)]
      · rw [recommendStep_eq "PRO" c.available "ELITE" d, if_neg hd1,
          if_neg (fun h => absurd h.1 (not_le.mpr hb1)),
          if_neg (fun h => absurd h.1 (not_le.mpr hc1)),
          if_pos (not_lt.mp hd1)]
    · rw [recommendStep_eq "ACTIVE" b.available "PRO" c, if_neg hc1]
      by_cases hd1 : d.available > b.available
      · rw [recommendStep_eq "ACTIVE" b.available "ELITE" d, if_pos hd1,
          if_neg (fun h => absurd h.1 (not_le.mpr hb1)),
          if_neg (fun h => absurd h.2 (not_le.mpr hd1)),
          if_neg (fun h => (not_le.mpr hd1) (h.trans (not_lt.mp hc1)))]
      · rw [recommendStep_eq "ACTIVE" b.available "ELITE" d, if_neg hd1,
          if_neg (fun h => absurd h.1 (not_le.mpr hb1)),
          if_pos ⟨not_lt.mp hc1, not_lt.mp hd1⟩]
  · rw [recommendStep_eq "NEWBIE" a.available "ACTIVE" b, if_neg hb1]
    by_cases hc1 : c.available > a.available
    · rw [recommendStep_eq "NEWBIE" a.available "PRO" c, if_pos hc1]
      by_cases hd1 : d.available > c.available
      · rw [recommendStep_eq "PRO" c.available "ELITE" d, if_pos hd1,
          if_neg (fun h => absurd h.2.1 (not_le.mpr hc1)),
          if_neg (fun h => absurd (h.1.trans (not_lt.mp hb1)) (not_le.mpr hc1)),
          if_neg (not_le.mpr hd1)]
      · rw [recommendStep_eq "PRO" c.available "ELITE" d, if_neg hd1,
          if_neg (fun h => absurd h.2.1 (not_le.mpr hc1)),
          if_neg (fun h => absurd (h.1.trans (not_lt.mp hb1)) (not_le.mpr hc1)),
          if_pos (not_lt.mp hd1)]
    · rw [recommendStep_eq "NEWBIE" a.available "PRO" c, if_neg hc1]
      by_cases hd1 : d.available > a.available
      · rw [recommendStep_eq "NEWBIE" a.available "ELITE" d, if_pos hd1,
          if_neg (fun h => absurd h.2.2 (not_le.mpr hd1)),
          if_neg (fun h => absurd (h.2.trans (not_lt.mp hb1)) (not_le.mpr hd1)),
          if_neg (fun h => (not_le.mpr hd1) (h.trans (not_lt.mp hc1)))]
      · rw [recommendStep_eq "NEWBIE" a.available "ELITE" d, if_neg hd1,
          if_pos ⟨not_lt.mp hb1, not_lt.mp hc1, not_lt.mp hd1⟩]

/-- Witness for C5 at a concrete input: ACTIVE and PRO tie at
`available = 50`; the earlier-declared ACTIVE wins. -/
theorem recommendedTier_spec_witness :
    getRecommendedTier (some ⟨⟨0, 0, 0⟩, ⟨0, 0, 0⟩,
      [("NEWBIE", ⟨0, 0, 0, 0⟩), ("ACTIVE", ⟨0, 50, 50, 0⟩),
       ("PRO", ⟨0, 50, 50, 0⟩), ("ELITE", ⟨0, 0, 0, 0⟩)]⟩) = "ACTIVE" := by
  have h := (recommendedTier_spec ⟨0, 0, 0⟩ ⟨0, 0, 0⟩ ⟨0, 0, 0, 0⟩
    ⟨0, 50, 50, 0⟩ ⟨0, 50, 50, 0⟩ ⟨0, 0, 0, 0⟩ (by norm_num)).2
  rw [h]
  norm_num

/-- C7: per-action admission for a known tier status: `click` is denied
exactly when `clicksRemaining ≤ 0`, with reason "Daily click limit reached"
and the current/limit counters attached, and allowed otherwise with the
live counters; `sale` is always allowed; unknown actions are allowed
(fail-open). -/
theorem isActionAllowed_spec (t : TierStatus) (action : String) :
    ((isActionAllowed "click" (some t)).allowed = false ↔ t.clicksRemaining ≤ 0)
    ∧ (t.clicksRemaining ≤ 0 →
        isActionAllowed "click" (some t) =
          ⟨false, some "Daily click limit reached",
            some t.clicksToday, some t.clicksLimit, some 0⟩)
    ∧ (0 < t.clicksRemaining →
        isActionAllowed "click" (some t) =
          ⟨true, none, some t.clicksToday, some t.clicksLimit,
            some t.clicksRemaining⟩)
    ∧ isActionAllowed "sale" (some t) = ⟨true, none, none, none, none⟩
    ∧ (action ≠ "click" → action ≠ "sale" →
        isActionAllowed action (some t) = ⟨true, none, none, none, none⟩) := by
  refine ⟨?_, fun h => ?_, fun h => ?_, ?_, fun h1 h2 => ?_⟩
  · by_cases h : t.clicksRemaining ≤ 0 <;> simp [isActionAllowed, h]
  · simp [isActionAllowed, h]
  · simp [isActionAllowed, not_le.mpr h]
  · simp [isActionAllowed]
  · simp [isActionAllowed, h1, h2]

/-- Witness for C7 at a concrete input: the unknown action "signup" is
allowed (fail-open). -/
theorem isActionAllowed_spec_witness :
    isActionAllowed "signup"
      (some ⟨"NEWBIE", 10, 0, some "ACTIVE", 3, 5, 2⟩) =
      ⟨true, none, none, none, none⟩ :=
  (isActionAllowed_spec ⟨"NEWBIE", 10, 0, some "ACTIVE", 3, 5, 2⟩
    "signup").2.2.2.2 (by decide) (by decide)

/-- C6: with a defined next tier, `canUpgrade` denies with the
sales-shortfall reason when `totalSales < salesRequiredForUpgrade`; denies
with the distinct tier-full/waitlist reason when sales suffice but the next
tier's live `available` is 0; and is eligible exactly when both the sales
and the capacity condition hold. -/
theorem canUpgrade_spec (t : TierStatus) (nt : String) (cap : TierCapacity)
    (hnext : t.nextTier = some nt) :
    (t.totalSales < t.salesRequiredForUpgrade →
      canUpgrade (some t) cap =
        ⟨false,
          some (.salesShortfall (t.salesRequiredForUpgrade - t.totalSales)),
          false⟩)
    ∧ (t.salesRequiredForUpgrade ≤ t.totalSales → cap.available ≤ 0 →
      canUpgrade (some t) cap = ⟨false, some (.tierFull nt), true⟩)
    ∧ ((canUpgrade (some t) cap).canUpgrade = true ↔
      t.salesRequiredForUpgrade ≤ t.totalSales ∧ cap.available > 0)
    ∧ (∀ q : ℚ, (UpgradeReason.tierFull nt) ≠ .salesShortfall q) := by
  refine ⟨fun h => ?_, fun h1 h2 => ?_, ?_, fun q => by simp⟩
  · simp [canUpgrade, hnext, not_le.mpr h]
  · simp [canUpgrade, hnext, h1, not_lt.mpr h2]
  · by_cases h1 : t.salesRequiredForUpgrade ≤ t.totalSales
    · by_cases h2 : cap.available > 0 <;> simp [canUpgrade, hnext, h1, h2]
    · simp [canUpgrade, hnext, h1]

/-- Witness for C6 at the spec's concrete input: `totalSales = 60` on
ACTIVE (`salesRequiredForUpgrade = 50`) with PRO at `available = 0` denies
with the tier-full/waitlist reason, not the sales shortfall. -/
theorem canUpgrade_spec_witness :
    canUpgrade (some ⟨"ACTIVE", 50, 60, some "PRO", 0, 50, 50⟩)
      ⟨90, 90, 0, 100⟩ = ⟨false, some (.tierFull "PRO"), true⟩ :=
  (canUpgrade_spec ⟨"ACTIVE", 50, 60, some "PRO", 0, 50, 50⟩ "PRO"
    ⟨90, 90, 0, 100⟩ rfl).2.1 (by norm_num) (by norm_num)

/-- C8: on a failed backend fetch (transport error or `success:false`) the
admission-facing methods return their conservative defaults as values —
`fetchCapacity` returns `null` with the held snapshot untouched, a tier
query with no verified tier returns the "Unable to verify tier" denial,
`checkTierCapacity` returns the zero default, `getAllTierCapacities`
returns the empty map so `getAvailableTier` answers `none` — and no hard
failure reaches the caller. -/
theorem fetchFailure_spec (s : MonitorState) (response : Option FetchResponse)
    (hfail : response = none ∨ ∃ r, response = some r ∧ r.success = false) :
    fetchCapacity s response = (none, s)
    ∧ (fetchCapacity s response).2.currentCapacity = s.currentCapacity
    ∧ (∀ action, isActionAllowed action none =
        ⟨false, some "Unable to verify tier", none, none, none⟩)
    ∧ (∀ tierName, checkTierCapacity response tierName = ⟨0, 0, 0, 0⟩)
    ∧ getAllTierCapacities response = []
    ∧ getAvailableTier (getAllTierCapacities response) = none := by
  have hfetch : fetchCapacity s response = (none, s) := by
    rcases hfail with h | ⟨r, hr, hs⟩
    · rw [h]; rfl
    · rw [hr]; simp [fetchCapacity, hs]
  have hall : getAllTierCapacities response = [] := by
    rcases hfail with h | ⟨r, hr, hs⟩
    · rw [h]; rfl
    · rw [hr]; simp [getAllTierCapacities, hs]
  refine ⟨hfetch, by rw [hfetch], fun action => rfl, fun tn => ?_, hall,
    by rw [hall]; rfl⟩
  rcases hfail with h | ⟨r, hr, hs⟩
  · rw [h]; rfl
  · rw [hr]; simp [checkTierCapacity, hs]

/-- Witness for C8 at a concrete input: a transport error leaves a held
snapshot and fired-warning set exactly as they were. -/
theorem fetchFailure_spec_witness :
    fetchCapacity
      ⟨some ⟨⟨10, 100, 90⟩, ⟨0, 0, 0⟩, []⟩, ["clicks_80"]⟩ none =
      (none, ⟨some ⟨⟨10, 100, 90⟩, ⟨0, 0, 0⟩, []⟩, ["clicks_80"]⟩) :=
  (fetchFailure_spec ⟨some ⟨⟨10, 100, 90⟩, ⟨0, 0, 0⟩, []⟩, ["clicks_80"]⟩
    none (Or.inl rfl)).1

/-- `Map.set` then `Map.get` on the same key. -/
lemma cacheFind_set_self {V : Type} (key : String) (e : CacheEntry V)
    (cache : Cache V) : cacheFind key (cacheSet key e cache) = some e := by
  induction cache with
  | nil => simp [cacheSet, cacheFind]
  | cons kv rest ih =>
    by_cases h : kv.1 = key
    · simp [cacheSet, cacheFind, h]
    · simp [cacheSet, cacheFind, h, ih]

/-- `Map.delete` removes every binding of the key. -/
lemma cacheFind_delete_self {V : Type} (key : String) (cache : Cache V) :
    cacheFind key (cacheDelete key cache) = none := by
  induction cache with
  | nil => rfl
  | cons kv rest ih =>
    by_cases h : kv.1 = key
    · simp [cacheDelete, h, ih]
    · simp [cacheDelete, cacheFind, h, ih]

/-- C9: a value set at `nowSet` with a ttl (defaulting to the 5-minute
`cacheTTL`) is returned by `getCached` at `nowRead` exactly when
`nowRead < nowSet + ttl`; past expiry the entry is evicted and `none` is
returned; `clearCache` empties every key regardless of remaining TTL. -/
theorem quotaCache_spec {V : Type} (key : String) (value : V)
    (ttl : Option ℕ) (nowSet nowRead : ℕ) (cache : Cache V) :
    ((getCached nowRead (setCached nowSet cache key value ttl) key).1 =
      if nowRead < nowSet + ttl.getD cacheTTL then some value else none)
    ∧ (¬ nowRead < nowSet + ttl.getD cacheTTL →
        cacheFind key
          (getCached nowRead (setCached nowSet cache key value ttl) key).2
          = none)
    ∧ (∀ k : String,
        getCached nowRead (clearCache cache) k = (none, clearCache cache)) := by
  have hfind : cacheFind key
      (cacheSet key ⟨value, nowSet + ttl.getD cacheTTL⟩ cache) =
      some ⟨value, nowSet + ttl.getD cacheTTL⟩ :=
    cacheFind_set_self key _ cache
  refine ⟨?_, fun h => ?_, fun k => rfl⟩
  · unfold getCached setCached
    rw [hfind]
    dsimp only
    split_ifs <;> rfl
  · unfold getCached setCached
    rw [hfind]
    dsimp only
    rw [if_neg h]
    exact cacheFind_delete_self key _

/-- Witness for C9 at the spec's concrete input: a value set with
`ttl = 100` at time 0 is gone at `t = 150`. -/
theorem quotaCache_spec_witness :
    cacheFind "tier_AFF001"
      (getCached 150 (setCached 0 ([] : Cache ℕ) "tier_AFF001" 7 (some 100))
        "tier_AFF001").2 = none :=
  (quotaCache_spec "tier_AFF001" 7 (some 100) 0 150 []).2.1 (by decide)

end VettedPulse
